import Mathlib

/-!
Shallow embedding of the Telegram media aggregation/download tool
(classifier, naming/task factory, scheduler admission and execution engine)
for verifying the natural-language specification against the source.

Source files embedded:
  - `src/types.ts` (enums and records),
  - `src/utils/helpers.ts` (file-name sanitization, templates, extensions),
  - `src/utils/config.ts` (download config, merge update),
  - `src/core/aggregator.ts` (classifier `extractMediaInfo`),
  - `src/core/downloader.ts` (task factory `generateOutputPath`, execution
    engine `executeDownload`, batch `downloadAll`, `clearCompletedTasks`).

Modelling conventions:
  - JS strings are modelled as `String`/`List Char` over code points.
  - The filesystem is a pair of path sets (files present, directories
    present); contents are irrelevant to every property proved here.
  - Wall-clock quantities (speed, eta, start/end times, the 0.5 s progress
    throttle) are outside the model; retry delays are recorded as events.
  - `generateId()` (wall clock + randomness) is modelled as an externally
    supplied fresh identifier argument.
-/

namespace TgDl

/-- Media file type enum (`MediaType` in src/types.ts). -/
inductive MediaType
  | photo
  | video
  | document
  | audio
  | voice
  | videoNote
  | animation
  | sticker
  | unknown
deriving DecidableEq, Repr

/-- The string value carried by each `MediaType` enum member in the source. -/
def mediaTypeValue : MediaType → String
  | MediaType.photo => "photo"
  | MediaType.video => "video"
  | MediaType.document => "document"
  | MediaType.audio => "audio"
  | MediaType.voice => "voice"
  | MediaType.videoNote => "video_note"
  | MediaType.animation => "animation"
  | MediaType.sticker => "sticker"
  | MediaType.unknown => "unknown"

/-- Download status enum (`DownloadStatus` in src/types.ts). -/
inductive DownloadStatus
  | pending
  | downloading
  | completed
  | failed
  | paused
  | cancelled
deriving DecidableEq, Repr

/-- Downloadability verdict enum (`DownloadableType` in src/types.ts). -/
inductive DownloadableType
  | downloadable
  | restricted
  | expired
  | tooLarge
  | unsupported
deriving DecidableEq, Repr

/-- A JS `Date` value, embedded by the two observations the source makes of
it: `toISOString()` and `toTimeString()`. -/
structure JsDate where
  isoString : String
  timeString : String
deriving DecidableEq, Repr

/-- Models `formatDate` (helpers.ts): `date.toISOString().split('T')[0]`. -/
def formatDate (d : JsDate) : String :=
  String.mk (d.isoString.toList.takeWhile (fun c => c ≠ 'T'))

/-- Models `formatTime` (helpers.ts):
`date.toTimeString().split(' ')[0].replace(/:/g, '-')`. -/
def formatTime (d : JsDate) : String :=
  String.mk ((d.timeString.toList.takeWhile (fun c => c ≠ ' ')).map
    (fun c => if c = ':' then '-' else c))

/-- The character class `[<>:"/\\|?*\x00-\x1f]` of `sanitizeFileName`. -/
def isIllegalChar (c : Char) : Bool :=
  c == '<' || c == '>' || c == ':' || c == '"' || c == '/' || c == '\\' ||
  c == '|' || c == '?' || c == '*' || decide (c.toNat < 32)

/-- ECMAScript `\s` (whitespace class used by `sanitizeFileName`). -/
def isJsSpace (c : Char) : Bool :=
  c == ' ' || c == '\t' || c == '\n' || c == '\x0b' || c == '\x0c' ||
  c == '\r' || c == '\u00A0' || c == '\u1680' ||
  (decide (0x2000 ≤ c.toNat) && decide (c.toNat ≤ 0x200A)) ||
  c == '\u2028' || c == '\u2029' || c == '\u202F' || c == '\u205F' ||
  c == '\u3000' || c == '\uFEFF'

/-- Replace every maximal run of characters satisfying `p` by the single
character `r`; the flag tracks whether we are inside a run. This is
`.replace(/X+/g, '_')` for a character class `X`. -/
def collapseAux (p : Char → Bool) (r : Char) : Bool → List Char → List Char
  | _, [] => []
  | inRun, c :: cs =>
    if p c then
      if inRun then collapseAux p r true cs
      else r :: collapseAux p r true cs
    else c :: collapseAux p r false cs

/-- Entry point of `collapseAux` (not inside a run). -/
def collapseRuns (p : Char → Bool) (r : Char) (l : List Char) : List Char :=
  collapseAux p r false l

/-- Drop one leading underscore (the `^_` half of `.replace(/^_|_$/g, '')`). -/
def dropOneLead : List Char → List Char
  | [] => []
  | c :: cs => if c = '_' then cs else c :: cs

/-- Drop one trailing underscore (the `_$` half of `.replace(/^_|_$/g, '')`). -/
def dropOneTrail (l : List Char) : List Char :=
  if l.getLast? == some '_' then l.dropLast else l

/-- Models `sanitizeFileName` (helpers.ts) on character lists: replace
illegal characters with `_`, collapse whitespace runs to `_`, collapse
underscore runs, trim one leading and one trailing underscore, then
truncate to 200 characters (`.slice(0, 200)` is applied last). -/
def sanitizeList (l : List Char) : List Char :=
  (dropOneTrail (dropOneLead (collapseRuns (fun c => c == '_') '_'
    (collapseRuns isJsSpace '_'
      (l.map (fun c => if isIllegalChar c then '_' else c)))))).take 200

/-- Models `sanitizeFileName` (helpers.ts). -/
def sanitizeFileName (s : String) : String :=
  String.mk (sanitizeList s.toList)

/-- Index of the last occurrence of `c`, accumulating the running index. -/
def lastIdxAux (c : Char) : List Char → Nat → Option Nat → Option Nat
  | [], _, acc => acc
  | x :: xs, i, acc => lastIdxAux c xs (i + 1) (if x = c then some i else acc)

/-- Models Node's `path.extname`: the suffix of the basename starting at its
last dot, `""` when there is no dot or the dot is the basename's first
character (dotfiles). -/
def extname (p : String) : String :=
  let cs := p.toList
  let base :=
    match lastIdxAux '/' cs 0 none with
    | none => cs
    | some i => cs.drop (i + 1)
  match lastIdxAux '.' base 0 none with
  | none => ""
  | some 0 => ""
  | some i => String.mk (base.drop i)

/-- Models Node's `path.dirname`: everything before the last slash, `"."`
when there is none. -/
def dirname (p : String) : String :=
  let cs := p.toList
  match lastIdxAux '/' cs 0 none with
  | none => "."
  | some 0 => "/"
  | some i => String.mk (cs.take i)

/-- Models Node's `path.join` for the two-argument uses in the source
(without normalization of `..` segments, which never arise here). -/
def pathJoin (a b : String) : String :=
  if a = "" then b
  else if b = "" then a
  else if a.toList.getLast? == some '/' then a ++ b
  else a ++ "/" ++ b

/-- Remove the first occurrence of character `c`; models the JS
single-character `.replace('.', '')` (string patterns replace only the
first match). -/
def removeFirstOccL (c : Char) : List Char → List Char
  | [] => []
  | x :: xs => if x = c then xs else x :: removeFirstOccL c xs

/-- String version of `removeFirstOccL`. -/
def removeFirstOcc (c : Char) (s : String) : String :=
  String.mk (removeFirstOccL c s.toList)

/-- ASCII lower-casing of a string (JS `toLowerCase` on the extensions that
occur here, which are ASCII). -/
def toLowerStr (s : String) : String :=
  String.mk (s.toList.map Char.toLower)

/-- The `mimeToExt` table of `getExtension` (helpers.ts). -/
def mimeToExtTable : List (String × String) :=
  [("image/jpeg", ".jpg"), ("image/png", ".png"), ("image/gif", ".gif"),
   ("image/webp", ".webp"), ("video/mp4", ".mp4"),
   ("video/quicktime", ".mov"), ("video/x-matroska", ".mkv"),
   ("video/webm", ".webm"), ("audio/mpeg", ".mp3"), ("audio/ogg", ".ogg"),
   ("audio/wav", ".wav"), ("audio/flac", ".flac"),
   ("application/pdf", ".pdf"), ("application/zip", ".zip"),
   ("application/x-rar-compressed", ".rar"),
   ("application/x-7z-compressed", ".7z"), ("text/plain", ".txt")]

/-- Structural association lookup. -/
def assocLookup : List (String × String) → String → Option String
  | [], _ => none
  | (k, v) :: rest, key => if k = key then some v else assocLookup rest key

/-- Models `getExtension` (helpers.ts): the lower-cased `path.extname` of
`fileName` when non-empty, otherwise the MIME-table entry, otherwise `""`. -/
def getExtension (fileName : String) (mimeType : Option String) : String :=
  let extFromName := toLowerStr (extname fileName)
  if extFromName ≠ "" then extFromName
  else
    match mimeType with
    | some m => (assocLookup mimeToExtTable m).getD ""
    | none => ""

/-- Floor of the base-1024 logarithm by repeated division; the structural
fuel `n` suffices since the logarithm of `n` is far below `n`. -/
def log1024Go : Nat → Nat → Nat
  | _, 0 => 0
  | n, fuel + 1 => if n < 1024 then 0 else log1024Go (n / 1024) fuel + 1

/-- Floor of the base-1024 logarithm (`Math.floor(Math.log(bytes) /
Math.log(1024))` in `formatFileSize`). -/
def log1024 (n : Nat) : Nat := log1024Go n n

/-- Models `formatFileSize` (helpers.ts) with exact rational arithmetic in
place of JS floating point: unit index `⌊log₁₀₂₄ bytes⌋` and two decimal
places (truncated; `toFixed(2)` rounds, a difference immaterial to every
claim, which only require this to be a function of `bytes`). -/
def formatFileSize (bytes : Nat) : String :=
  if bytes = 0 then "0 B"
  else
    let i := log1024 bytes
    let unit := ["B", "KB", "MB", "GB", "TB"].getD i "undefined"
    let scaled := bytes * 100 / 1024 ^ i
    toString (scaled / 100) ++ "." ++
      (if scaled % 100 < 10 then "0" else "") ++ toString (scaled % 100) ++
      " " ++ unit

/-- Models `formatSpeed` (helpers.ts). -/
def formatSpeed (bytesPerSecond : Nat) : String :=
  formatFileSize bytesPerSecond ++ "/s"

/-- The 2 GiB ceiling `MAX_FILE_SIZE` of src/core/aggregator.ts. -/
def MAX_FILE_SIZE : Nat := 2 * 1024 * 1024 * 1024

/-- Download configuration (`DownloadConfig` in src/types.ts). -/
structure DownloadConfig where
  outputDir : String
  concurrentDownloads : Nat
  chunkSize : Nat
  maxRetries : Nat
  retryDelay : Nat
  resumeEnabled : Bool
  speedLimit : Option Nat
  fileNameTemplate : String
  createSubfolders : Bool
  skipExisting : Bool
deriving DecidableEq, Repr

/-- Default download configuration (`DEFAULT_DOWNLOAD_CONFIG` in
src/utils/config.ts); `os.homedir()` is modelled by the placeholder
`<home>`, immaterial to every claim. -/
def DEFAULT_DOWNLOAD_CONFIG : DownloadConfig :=
  { outputDir := "<home>/TG-Downloads"
    concurrentDownloads := 3
    chunkSize := 512 * 1024
    maxRetries := 3
    retryDelay := 2000
    resumeEnabled := true
    speedLimit := none
    fileNameTemplate := "{chatTitle}_{date}_{id}.{extension}"
    createSubfolders := true
    skipExisting := true }

/-- A `Partial<DownloadConfig>`: each field optionally overridden. -/
structure PartialDownloadConfig where
  outputDir : Option String := none
  concurrentDownloads : Option Nat := none
  chunkSize : Option Nat := none
  maxRetries : Option Nat := none
  retryDelay : Option Nat := none
  resumeEnabled : Option Bool := none
  speedLimit : Option (Option Nat) := none
  fileNameTemplate : Option String := none
  createSubfolders : Option Bool := none
  skipExisting : Option Bool := none
deriving Repr

/-- JS object spread `{ ...base, ...upd }` for download configurations, as
performed by `updateDownloadConfig` (config.ts) and `downloadAll` /
`downloadOne` / `createDownloadTask` (downloader.ts). -/
def mergeDownloadConfig (base : DownloadConfig) (upd : PartialDownloadConfig) :
    DownloadConfig :=
  { outputDir := upd.outputDir.getD base.outputDir
    concurrentDownloads := upd.concurrentDownloads.getD base.concurrentDownloads
    chunkSize := upd.chunkSize.getD base.chunkSize
    maxRetries := upd.maxRetries.getD base.maxRetries
    retryDelay := upd.retryDelay.getD base.retryDelay
    resumeEnabled := upd.resumeEnabled.getD base.resumeEnabled
    speedLimit := upd.speedLimit.getD base.speedLimit
    fileNameTemplate := upd.fileNameTemplate.getD base.fileNameTemplate
    createSubfolders := upd.createSubfolders.getD base.createSubfolders
    skipExisting := upd.skipExisting.getD base.skipExisting }

/-- Models `updateDownloadConfig` (config.ts lines 176-179): the
configuration saved is the plain merge of the current one with the
updates; no field is validated or clamped. -/
def updateDownloadConfig (current : DownloadConfig)
    (updates : PartialDownloadConfig) : DownloadConfig :=
  mergeDownloadConfig current updates

/-- Models the `validate` callback of the interactive `concurrentDownloads`
prompt (cli, `configureDownload`): `input >= 1 && input <= 10`. -/
def validateConcurrentDownloadsInput (input : Nat) : Bool :=
  decide (1 ≤ input) && decide (input ≤ 10)

/-- Classified media record (`MediaInfo` in src/types.ts). -/
structure MediaInfo where
  id : String
  messageId : Nat
  chatId : String
  chatTitle : String
  type : MediaType
  mimeType : Option String
  fileName : Option String
  fileSize : Nat
  fileSizeFormatted : String
  downloadable : DownloadableType
  downloadableReason : Option String
  date : JsDate
  caption : Option String
  duration : Option Nat
  width : Option Nat
  height : Option Nat
deriving DecidableEq, Repr

/-- One entry of a Telegram photo's `sizes` array: either an
`Api.PhotoSize` (with size and dimensions) or any other size variant. -/
inductive PhotoSizeEntry
  | photoSize (size w h : Nat)
  | otherSize
deriving DecidableEq, Repr

/-- `media.photo`: an `Api.Photo` with its sizes, or any other variant. -/
inductive TgPhoto
  | photo (sizes : List PhotoSizeEntry)
  | otherPhoto
deriving DecidableEq, Repr

/-- One document attribute, as inspected by `extractMediaInfo`. -/
inductive DocAttr
  | filename (name : String)
  | video (roundMessage : Bool) (duration w h : Nat)
  | audio (voice : Bool) (duration : Nat)
  | animated
  | sticker
  | otherAttr
deriving DecidableEq, Repr

/-- `media.document`: an `Api.Document` (size, MIME type, attributes) or
any other variant. -/
inductive TgDocument
  | doc (size : Nat) (mimeType : String) (attrs : List DocAttr)
  | otherDoc
deriving DecidableEq, Repr

/-- `message.media`: photo media, document media, or any other kind. -/
inductive TgMedia
  | mediaPhoto (photo : TgPhoto)
  | mediaDocument (doc : TgDocument)
  | mediaOther
deriving DecidableEq, Repr

/-- The fields of an `Api.Message` read by `extractMediaInfo`. The JS
`new Date(message.date * 1000)` conversion is modelled by the message
carrying its date observations directly. -/
structure TgMessage where
  id : Nat
  media : Option TgMedia
  date : JsDate
  text : Option String
deriving DecidableEq, Repr

/-- The file size / width / height resolved from a photo: the last entry of
`photo.sizes` when it is an `Api.PhotoSize`, otherwise zero size. -/
def photoDims : TgPhoto → Nat × Option Nat × Option Nat
  | TgPhoto.photo sizes =>
    match sizes.getLast? with
    | some (PhotoSizeEntry.photoSize s w h) => (s, some w, some h)
    | _ => (0, none, none)
  | TgPhoto.otherPhoto => (0, none, none)

/-- Scan state of the document-attribute loop of `extractMediaInfo`. -/
structure DocScan where
  type : MediaType
  fileName : Option String
  duration : Option Nat
  width : Option Nat
  height : Option Nat
deriving DecidableEq, Repr

/-- Initial scan state: `type` starts as UNKNOWN, everything else unset. -/
def initDocScan : DocScan :=
  { type := MediaType.unknown, fileName := none, duration := none,
    width := none, height := none }

/-- One step of the document-attribute loop of `extractMediaInfo`. -/
def applyDocAttr (st : DocScan) : DocAttr → DocScan
  | DocAttr.filename name => { st with fileName := some name }
  | DocAttr.video round dur w h =>
    { st with
      type := if round then MediaType.videoNote else MediaType.video,
      duration := some dur, width := some w, height := some h }
  | DocAttr.audio voice dur =>
    { st with
      type := if voice then MediaType.voice else MediaType.audio,
      duration := some dur }
  | DocAttr.animated => { st with type := MediaType.animation }
  | DocAttr.sticker => { st with type := MediaType.sticker }
  | DocAttr.otherAttr => st

/-- The downloadability verdict with its reason, computed from the resolved
file size (aggregator.ts lines 106-113): `TOO_LARGE` with a reason string
exactly when `fileSize > MAX_FILE_SIZE`, otherwise `DOWNLOADABLE` with no
reason. -/
def classifyDownloadable (fileSize : Nat) : DownloadableType × Option String :=
  if fileSize > MAX_FILE_SIZE then
    (DownloadableType.tooLarge,
     some ("文件大小超过2GB限制 (" ++ formatFileSize fileSize ++ ")"))
  else (DownloadableType.downloadable, none)

/-- The common `MediaInfo` constructor at the end of `extractMediaInfo`;
`caption: message.message || undefined` maps the empty string to absence. -/
def buildMediaInfo (freshId : String) (message : TgMessage)
    (chatId chatTitle : String) (type : MediaType)
    (mimeType fileName : Option String) (fileSize : Nat)
    (duration width height : Option Nat) : MediaInfo :=
  { id := freshId
    messageId := message.id
    chatId := chatId
    chatTitle := chatTitle
    type := type
    mimeType := mimeType
    fileName := fileName
    fileSize := fileSize
    fileSizeFormatted := formatFileSize fileSize
    downloadable := (classifyDownloadable fileSize).1
    downloadableReason := (classifyDownloadable fileSize).2
    date := message.date
    caption :=
      match message.text with
      | some s => if s = "" then none else some s
      | none => none
    duration := duration
    width := width
    height := height }

/-- Models `extractMediaInfo` (aggregator.ts lines 29-139): classify a
message's media into a `MediaInfo`, or `none` for messages without media
and unsupported media kinds. `freshId` stands for the `generateId()` call. -/
def extractMediaInfo (freshId : String) (message : TgMessage)
    (chatId chatTitle : String) : Option MediaInfo :=
  match message.media with
  | none => none
  | some (TgMedia.mediaPhoto p) =>
    let dims := photoDims p
    some (buildMediaInfo freshId message chatId chatTitle MediaType.photo
      (some "image/jpeg")
      (some ("photo_" ++ toString message.id ++ ".jpg"))
      dims.1 none dims.2.1 dims.2.2)
  | some (TgMedia.mediaDocument (TgDocument.doc size mime attrs)) =>
    let st := attrs.foldl applyDocAttr initDocScan
    let finalType :=
      if st.type = MediaType.unknown then MediaType.document else st.type
    let fileName :=
      match st.fileName with
      | some n => some n
      | none =>
        some ("file_" ++ toString message.id ++ getExtension "" (some mime))
    some (buildMediaInfo freshId message chatId chatTitle finalType
      (some mime) fileName size st.duration st.width st.height)
  | some (TgMedia.mediaDocument TgDocument.otherDoc) =>
    some (buildMediaInfo freshId message chatId chatTitle MediaType.unknown
      none none 0 none none none)
  | some TgMedia.mediaOther => none

/-- Models `getMediaTypeFolder` (helpers.ts). -/
def getMediaTypeFolder : MediaType → String
  | MediaType.photo => "photos"
  | MediaType.video => "videos"
  | MediaType.document => "documents"
  | MediaType.audio => "audio"
  | MediaType.voice => "voice"
  | MediaType.videoNote => "video_notes"
  | MediaType.animation => "animations"
  | MediaType.sticker => "stickers"
  | MediaType.unknown => "other"

/-- File-name template variables (`FileNameVariables` in src/types.ts). -/
structure FileNameVariables where
  id : String
  chatTitle : String
  chatId : String
  date : String
  time : String
  type : String
  originalName : String
  extension : String
  caption : String
  messageId : String
deriving DecidableEq, Repr

/-- Left-to-right, non-overlapping replacement of every occurrence of
`pat` by `rep`, as performed by a global literal-pattern JS regex replace.
The `$`-substitution JS applies inside replacement strings is not
modelled (it affects no property proved here, since `sanitizeFileName` is
reapplied to the final result). -/
def replaceAll (pat rep : List Char) : List Char → List Char
  | [] => []
  | c :: cs =>
    if pat.isPrefixOf (c :: cs) && !pat.isEmpty then
      rep ++ replaceAll pat rep ((c :: cs).drop pat.length)
    else
      c :: replaceAll pat rep cs
termination_by l => l.length
decreasing_by
  · simp only [Bool.and_eq_true, Bool.not_eq_true', List.isEmpty_eq_false_iff_exists_mem] at *
    have hlen : 0 < pat.length := by
      cases pat with
      | nil => simp_all
      | cons a l => simp
    simp [List.length_drop]
    omega
  · simp

/-- Models `generateFileName` (helpers.ts lines 243-258): substitute the ten
template placeholders in order, sanitizing `chatTitle`, `originalName` and
the 30-character-truncated `caption`, then sanitize the whole result. -/
def generateFileName (template : String) (vars : FileNameVariables) : String :=
  let r := template.toList
  let r := replaceAll "{id}".toList vars.id.toList r
  let r := replaceAll "{chatTitle}".toList (sanitizeFileName vars.chatTitle).toList r
  let r := replaceAll "{chatId}".toList vars.chatId.toList r
  let r := replaceAll "{date}".toList vars.date.toList r
  let r := replaceAll "{time}".toList vars.time.toList r
  let r := replaceAll "{type}".toList vars.type.toList r
  let r := replaceAll "{originalName}".toList (sanitizeFileName vars.originalName).toList r
  let r := replaceAll "{extension}".toList vars.extension.toList r
  let r := replaceAll "{caption}".toList (sanitizeFileName (String.mk (vars.caption.toList.take 30))).toList r
  let r := replaceAll "{messageId}".toList vars.messageId.toList r
  sanitizeFileName (String.mk r)

/-- The `.dlstate` suffix (`DOWNLOAD_STATE_SUFFIX` in downloader.ts). -/
def DOWNLOAD_STATE_SUFFIX : String := ".dlstate"

/-- The resume-marker path for an output path. -/
def statePath (outputPath : String) : String :=
  outputPath ++ DOWNLOAD_STATE_SUFFIX

/-- Filesystem model: the set of file paths present and the set of
directories present (contents are irrelevant to the claims). -/
structure FS where
  files : List String
  dirs : List String
deriving DecidableEq, Repr

/-- Models `fileExists` / `fs.existsSync` on files. -/
def fileExists (fs : FS) (p : String) : Bool :=
  fs.files.contains p

/-- Models `fs.writeFileSync`: afterwards the path is present. -/
def fsWriteFile (fs : FS) (p : String) : FS :=
  { fs with files := p :: fs.files }

/-- Models `fs.unlinkSync` (guarded by `existsSync` in the source):
afterwards the path is absent. -/
def fsUnlink (fs : FS) (p : String) : FS :=
  { fs with files := fs.files.filter (fun q => q != p) }

/-- Models `ensureDir` (helpers.ts): create the directory if absent. -/
def ensureDir (fs : FS) (d : String) : FS :=
  if fs.dirs.contains d then fs else { fs with dirs := d :: fs.dirs }

/-- The template branch of `generateOutputPath`: build the
`FileNameVariables`, render the template, and append the inferred
extension when the rendered name has no `path.extname` extension. -/
def templateFileName (media : MediaInfo) (config : DownloadConfig) : String :=
  let vars : FileNameVariables :=
    { id := media.id
      chatTitle := media.chatTitle
      chatId := media.chatId
      date := formatDate media.date
      time := formatTime media.date
      type := mediaTypeValue media.type
      originalName := media.fileName.getD ("file_" ++ toString media.messageId)
      extension :=
        removeFirstOcc '.' (getExtension (media.fileName.getD "") media.mimeType)
      caption := media.caption.getD ""
      messageId := toString media.messageId }
  let fileName := generateFileName config.fileNameTemplate vars
  if extname fileName = "" then
    fileName ++ getExtension (media.fileName.getD "") media.mimeType
  else fileName

/-- The file-name part of `generateOutputPath` (downloader.ts lines
107-134): a truthy (non-empty) custom file name is used verbatim, with the
record's inferred extension appended when it contains no dot; otherwise
the name is rendered from the config's template. -/
def outputFileName (media : MediaInfo) (config : DownloadConfig)
    (customFileName : Option String) : String :=
  match customFileName with
  | some c =>
    if c ≠ "" then
      let ext := getExtension (media.fileName.getD "") media.mimeType
      if c.toList.contains '.' then c else c ++ ext
    else templateFileName media config
  | none => templateFileName media config

/-- Models `generateOutputPath` (downloader.ts lines 102-146): compute the
file name, pick the output directory (with the type-keyed subfolder when
`createSubfolders`), create the directory, and return the joined path. The
filesystem is threaded explicitly for the `ensureDir` effect. -/
def generateOutputPath (media : MediaInfo) (config : DownloadConfig)
    (customFileName : Option String) (fs : FS) : String × FS :=
  let fileName := outputFileName media config customFileName
  let outputDir :=
    if config.createSubfolders then
      pathJoin config.outputDir (getMediaTypeFolder media.type)
    else config.outputDir
  let fs1 := ensureDir fs outputDir
  (pathJoin outputDir fileName, fs1)

/-- Download task (`DownloadTask` in src/types.ts). The wall-clock fields
`speed`, `speedFormatted`, `eta`, `startTime`, `endTime` are outside the
model. -/
structure DownloadTask where
  id : String
  media : MediaInfo
  status : DownloadStatus
  progress : Nat
  downloadedBytes : Nat
  outputPath : String
  customFileName : Option String
  error : Option String
  retryCount : Nat
deriving DecidableEq, Repr

/-- Models `createDownloadTask` (downloader.ts lines 151-174); `freshId`
stands for the `generateId()` call. -/
def createDownloadTask (freshId : String) (media : MediaInfo)
    (config : DownloadConfig) (customFileName : Option String) (fs : FS) :
    DownloadTask × FS :=
  let out := generateOutputPath media config customFileName fs
  ({ id := freshId
     media := media
     status := DownloadStatus.pending
     progress := 0
     downloadedBytes := 0
     outputPath := out.1
     customFileName := customFileName
     error := none
     retryCount := 0 }, out.2)

/-- Outcome of one `client.downloadMedia` call (together with the
entity/message fetches of the same `try` block) when neither control flag
is set: success, or a failure carrying the thrown error's message (this
covers missing messages, media-less messages, and the null-buffer case). -/
inductive TransferOutcome
  | ok
  | err (msg : String)
deriving DecidableEq, Repr

/-- Execution environment of one task: whether the task's id is in the
`pausedTasks` / `cancelledTasks` sets (held fixed for the execution, i.e.
the flag is observed by the progress callback of every attempt), and the
transfer outcome of each attempt, indexed by the task's `retryCount` at
that attempt. -/
structure Env where
  paused : Bool
  cancelled : Bool
  provider : Nat → TransferOutcome

/-- Observable lifecycle events of one execution: the `onStart` /
`onComplete` / `onError` / `onPause` callbacks, the `client.downloadMedia`
invocations (tagged with the attempt's `retryCount`), and the
`delay(config.retryDelay * task.retryCount)` sleeps. Intermediate
`onProgress` invocations are elided (no claim concerns them). -/
inductive Ev
  | startEv (taskId : String)
  | transferEv (attempt : Nat)
  | completeEv (taskId : String)
  | errorEv (taskId : String) (msg : String)
  | pauseEv (taskId : String)
  | delayEv (ms : Nat)
deriving DecidableEq, Repr

/-- Result of executing one task: final task record, filesystem, and the
event trace. -/
structure ExecResult where
  task : DownloadTask
  fs : FS
  trace : List Ev
deriving Repr

/-- Models `executeDownload` (downloader.ts lines 179-349).

Branches, in source order:
1. a non-DOWNLOADABLE record fails immediately with the record's reason
   (falling back to `文件不可下载`), firing `onError`;
2. with `skipExisting` and an existing output file, complete immediately
   with progress 100 and no transfer;
3. otherwise transition to DOWNLOADING and attempt the transfer:
   a pause flag aborts via the thrown `PAUSED` sentinel, whose handler
   saves a resume marker; a cancel flag aborts via `CANCELLED`, whose
   handler deletes the output file and the marker; a successful transfer
   writes the file, removes the marker and completes; any other failure
   retries by re-entering `executeDownload` after a
   `retryDelay * retryCount` sleep while `retryCount < maxRetries`, and
   otherwise fails with the error's message, firing `onError`.

The connected-client guard and the read-only resume-marker lookup of the
source have no observable effect in the model and are elided. -/
def executeDownload (env : Env) (config : DownloadConfig)
    (task : DownloadTask) (fs : FS) : ExecResult :=
  if task.media.downloadable ≠ DownloadableType.downloadable then
    let errMsg := task.media.downloadableReason.getD "文件不可下载"
    { task := { task with status := DownloadStatus.failed, error := some errMsg }
      fs := fs
      trace := [Ev.errorEv task.id errMsg] }
  else if config.skipExisting && fileExists fs task.outputPath then
    { task :=
        { task with
          status := DownloadStatus.completed, progress := 100,
          downloadedBytes := task.media.fileSize }
      fs := fs
      trace := [Ev.completeEv task.id] }
  else if env.paused then
    { task := { task with status := DownloadStatus.paused }
      fs := fsWriteFile (ensureDir fs (dirname task.outputPath))
              (statePath task.outputPath)
      trace := [Ev.startEv task.id, Ev.transferEv task.retryCount,
                Ev.pauseEv task.id] }
  else if env.cancelled then
    { task := { task with status := DownloadStatus.cancelled }
      fs := fsUnlink (fsUnlink (ensureDir fs (dirname task.outputPath))
              task.outputPath) (statePath task.outputPath)
      trace := [Ev.startEv task.id, Ev.transferEv task.retryCount] }
  else
    match env.provider task.retryCount with
    | TransferOutcome.ok =>
      { task :=
          { task with
            status := DownloadStatus.completed, progress := 100,
            downloadedBytes := task.media.fileSize }
        fs := fsUnlink (fsWriteFile (ensureDir fs (dirname task.outputPath))
                task.outputPath) (statePath task.outputPath)
        trace := [Ev.startEv task.id, Ev.transferEv task.retryCount,
                  Ev.completeEv task.id] }
    | TransferOutcome.err msg =>
      if task.retryCount < config.maxRetries then
        let r := executeDownload env config
          { task with
            status := DownloadStatus.downloading,
            retryCount := task.retryCount + 1 }
          (ensureDir fs (dirname task.outputPath))
        { task := r.task
          fs := r.fs
          trace :=
            [Ev.startEv task.id, Ev.transferEv task.retryCount,
             Ev.delayEv (config.retryDelay * (task.retryCount + 1))] ++ r.trace }
      else
        { task := { task with status := DownloadStatus.failed, error := some msg }
          fs := ensureDir fs (dirname task.outputPath)
          trace := [Ev.startEv task.id, Ev.transferEv task.retryCount,
                    Ev.errorEv task.id msg] }
termination_by config.maxRetries - task.retryCount
decreasing_by simp; omega

/-- The retry-delay sleeps of a trace, in order. -/
def delaysOf (trace : List Ev) : List Nat :=
  trace.filterMap fun e =>
    match e with
    | Ev.delayEv n => some n
    | _ => none

/-- The scheduling-relevant content of `downloadAll` (downloader.ts lines
354-383): tasks are created only for DOWNLOADABLE records, and the merged
configuration's `concurrentDownloads` is handed to `pLimit` verbatim as
the concurrency bound. -/
structure BatchPlan where
  admitted : List MediaInfo
  concurrency : Nat
deriving DecidableEq, Repr

/-- Models the admission and concurrency-bound computation of
`downloadAll`. -/
def downloadAllPlan (saved : DownloadConfig) (override : PartialDownloadConfig)
    (mediaList : List MediaInfo) : BatchPlan :=
  let downloadConfig := mergeDownloadConfig saved override
  { admitted :=
      mediaList.filter
        (fun m => m.downloadable == DownloadableType.downloadable)
    concurrency := downloadConfig.concurrentDownloads }

/-- The task registry (`downloadTasks` map of downloader.ts), as an
association list from task id to task. -/
abbrev Registry := List (String × DownloadTask)

/-- Models `clearCompletedTasks` (downloader.ts lines 454-463): remove the
tasks whose status is COMPLETED or CANCELLED; keep everything else. -/
def clearCompletedTasks (reg : Registry) : Registry :=
  reg.filter fun e =>
    !(e.2.status == DownloadStatus.completed ||
      e.2.status == DownloadStatus.cancelled)

/-- String-level predicate: no filesystem-illegal character and no
whitespace character occurs in the name. -/
def noIllegalOrSpace (s : String) : Bool :=
  s.toList.all fun c => !isIllegalChar c && !isJsSpace c

/-- Bool predicate: no two consecutive underscores. -/
def noDoubleL : List Char → Bool
  | a :: b :: rest => !(a == '_' && b == '_') && noDoubleL (b :: rest)
  | _ => true

/-- String-level predicate: no two consecutive underscores. -/
def noDoubleUnderscore (s : String) : Bool :=
  noDoubleL s.toList

/-- String-level predicate: the name does not start with an underscore. -/
def noLeadingUnderscore (s : String) : Bool :=
  !(s.toList.head? == some '_')

/-- String-level predicate: the name does not end with an underscore. -/
def noTrailingUnderscore (s : String) : Bool :=
  !(s.toList.getLast? == some '_')

theorem mem_collapseAux {p : Char → Bool} {r : Char} :
    ∀ {b : Bool} {l : List Char} {c : Char}, c ∈ collapseAux p r b l →
      c = r ∨ (c ∈ l ∧ p c = false) := by
  intro b l
  induction l generalizing b with
  | nil => intro c h; simp [collapseAux] at h
  | cons x xs ih =>
    intro c h
    by_cases hx : p x = true
    · rw [collapseAux, if_pos hx] at h
      by_cases hb : b = true
      · subst hb; simp only [if_pos rfl] at h
        rcases ih h with h1 | h2
        · exact Or.inl h1
        · exact Or.inr ⟨List.mem_cons_of_mem _ h2.1, h2.2⟩
      · replace hb : b = false := by cases b <;> simp_all
        subst hb; simp only [Bool.false_eq_true, if_neg] at h
        rcases List.mem_cons.mp h with h1 | h1
        · exact Or.inl h1
        · rcases ih h1 with h2 | h3
          · exact Or.inl h2
          · exact Or.inr ⟨List.mem_cons_of_mem _ h3.1, h3.2⟩
    · rw [collapseAux, if_neg hx] at h
      rcases List.mem_cons.mp h with h1 | h1
      · subst h1
        exact Or.inr ⟨List.mem_cons_self _ _, by simpa using hx⟩
      · rcases ih h1 with h2 | h3
        · exact Or.inl h2
        · exact Or.inr ⟨List.mem_cons_of_mem _ h3.1, h3.2⟩

theorem collapseAux_true_head {p : Char → Bool} {r : Char} :
    ∀ {l : List Char} {c : Char} {cs : List Char},
      collapseAux p r true l = c :: cs → p c = false := by
  intro l
  induction l with
  | nil => intro c cs h; simp [collapseAux] at h
  | cons x xs ih =>
    intro c cs h
    by_cases hx : p x = true
    · rw [collapseAux, if_pos hx, if_pos rfl] at h
      exact ih h
    · rw [collapseAux, if_neg hx] at h
      cases h
      simpa using hx

theorem noDoubleL_tail {a : Char} {l : List Char}
    (h : noDoubleL (a :: l) = true) : noDoubleL l = true := by
  cases l with
  | nil => rfl
  | cons b r => exact (Bool.and_eq_true_iff.mp h).2

theorem noDoubleL_cons_of_ne {a : Char} {l : List Char}
    (ha : (a == '_') = false) (h : noDoubleL l = true) :
    noDoubleL (a :: l) = true := by
  cases l with
  | nil => rfl
  | cons b r =>
    rw [noDoubleL, ha]
    simpa using h

theorem noDoubleL_collapseU :
    ∀ (b : Bool) (l : List Char),
      noDoubleL (collapseAux (fun c => c == '_') '_' b l) = true := by
  intro b l
  induction l generalizing b with
  | nil => rfl
  | cons x xs ih =>
    by_cases hx : (x == '_') = true
    · rw [collapseAux, if_pos hx]
      cases b with
      | true => simpa using ih true
      | false =>
        simp only [if_neg Bool.false_ne_true]
        rcases htail : collapseAux (fun c => c == '_') '_' true xs with _ | ⟨c, cs⟩
        · rfl
        · rw [noDoubleL]
          have hc := collapseAux_true_head htail
          have hnd := ih true
          rw [htail] at hnd
          simp [hc, hnd]
    · rw [collapseAux, if_neg hx]
      exact noDoubleL_cons_of_ne (by simpa using hx) (ih false)

theorem noDoubleL_append_right {xs ys : List Char}
    (h : noDoubleL (xs ++ ys) = true) : noDoubleL ys = true := by
  induction xs with
  | nil => simpa using h
  | cons a t ih => exact ih (noDoubleL_tail (by simpa using h))

theorem noDoubleL_append_left {xs ys : List Char}
    (h : noDoubleL (xs ++ ys) = true) : noDoubleL xs = true := by
  induction xs with
  | nil => rfl
  | cons a t ih =>
    cases t with
    | nil => rfl
    | cons b r =>
      simp only [List.cons_append, noDoubleL, Bool.and_eq_true_iff] at h ⊢
      exact ⟨h.1, by simpa using ih (by simpa using h.2)⟩

theorem noDoubleL_infix {l' l : List Char} (hinf : l' <:+: l)
    (h : noDoubleL l = true) : noDoubleL l' = true := by
  rcases hinf with ⟨s, t, rfl⟩
  exact noDoubleL_append_right (noDoubleL_append_left h)

theorem dropOneTrail_prefix_self (l : List Char) : dropOneTrail l <+: l := by
  unfold dropOneTrail
  split
  · exact List.dropLast_prefix l
  · exact List.prefix_refl l

theorem dropOneLead_suffix (l : List Char) : dropOneLead l <:+ l := by
  cases l with
  | nil => exact List.suffix_refl []
  | cons c cs =>
    by_cases hc : c = '_'
    · simp only [dropOneLead, if_pos hc]
      exact List.suffix_cons c cs
    · simp only [dropOneLead, if_neg hc]
      exact List.suffix_refl _

theorem sanitizeList_infix_chain (l : List Char) :
    sanitizeList l <:+:
      collapseRuns (fun c => c == '_') '_' (collapseRuns isJsSpace '_'
        (l.map (fun c => if isIllegalChar c then '_' else c))) := by
  unfold sanitizeList
  refine List.IsInfix.trans ?_
    (List.IsSuffix.isInfix (dropOneLead_suffix _))
  exact List.IsPrefix.isInfix
    ((List.take_prefix _ _).trans (dropOneTrail_prefix_self _))

theorem mem_sanitizeList {l : List Char} {c : Char} (h : c ∈ sanitizeList l) :
    isIllegalChar c = false ∧ isJsSpace c = false := by
  have h1 := (sanitizeList_infix_chain l).subset h
  rcases mem_collapseAux h1 with rfl | ⟨h2, hu⟩
  · exact ⟨by decide, by decide⟩
  rcases mem_collapseAux h2 with rfl | ⟨h3, hs⟩
  · exact ⟨by decide, by decide⟩
  rcases List.mem_map.mp h3 with ⟨x, _, hx⟩
  by_cases hill : isIllegalChar x = true
  · rw [if_pos hill] at hx
    subst hx
    exact ⟨by decide, by decide⟩
  · rw [if_neg hill] at hx
    subst hx
    exact ⟨by simpa using hill, hs⟩

theorem noDoubleL_sanitizeList (l : List Char) :
    noDoubleL (sanitizeList l) = true :=
  noDoubleL_infix (sanitizeList_infix_chain l) (noDoubleL_collapseU false _)

theorem sanitizeList_length (l : List Char) : (sanitizeList l).length ≤ 200 := by
  unfold sanitizeList
  simp [List.length_take]

theorem take_head_eq {X : List Char} {n : Nat} {c : Char} {cs : List Char}
    (h : X.take (n + 1) = c :: cs) : ∃ cs2, X = c :: cs2 := by
  cases X with
  | nil => simp at h
  | cons x xs =>
    rw [List.take_succ_cons] at h
    exact ⟨xs, by rw [(List.cons.inj h).1]⟩

theorem dropOneTrail_head {X : List Char} {c : Char} {cs : List Char}
    (h : dropOneTrail X = c :: cs) : ∃ cs2, X = c :: cs2 := by
  unfold dropOneTrail at h
  split at h
  · cases X with
    | nil => simp at h
    | cons x xs =>
      cases xs with
      | nil => simp at h
      | cons y ys =>
        rw [List.dropLast_cons₂] at h
        exact ⟨y :: ys, by rw [(List.cons.inj h).1]⟩
  · exact ⟨cs, h⟩

theorem dropOneLead_head_ne {C : List Char} (hnd : noDoubleL C = true)
    {c : Char} {cs : List Char} (h : dropOneLead C = c :: cs) :
    (c == '_') = false := by
  cases C with
  | nil => simp [dropOneLead] at h
  | cons x xs =>
    by_cases hx : x = '_'
    · rw [dropOneLead, if_pos hx] at h
      subst hx; subst h
      cases hc : (c == '_')
      · rfl
      · rw [noDoubleL] at hnd
        simp [hc] at hnd
    · rw [dropOneLead, if_neg hx] at h
      rw [← (List.cons.inj h).1]
      simpa using hx

theorem sanitizeList_head_ne {l : List Char} {c : Char} {cs : List Char}
    (h : sanitizeList l = c :: cs) : (c == '_') = false := by
  unfold sanitizeList at h
  obtain ⟨cs2, h2⟩ := take_head_eq (n := 199) h
  obtain ⟨cs3, h3⟩ := dropOneTrail_head h2
  exact dropOneLead_head_ne (noDoubleL_collapseU false _) h3

theorem noDoubleL_dropLast_getLast :
    ∀ {X : List Char}, noDoubleL X = true → X.getLast? = some '_' →
      ∀ {c : Char}, X.dropLast.getLast? = some c → c ≠ '_' := by
  intro X
  induction X with
  | nil => intro _ h; simp at h
  | cons a t ih =>
    intro hnd hlast c hdrop
    cases t with
    | nil =>
      simp at hdrop
    | cons b r =>
      cases r with
      | nil =>
        simp only [List.getLast?_cons_cons, List.getLast?_singleton] at hlast
        rw [List.dropLast_cons₂, List.dropLast_single] at hdrop
        simp only [List.getLast?_singleton, Option.some.injEq] at hdrop
        subst hdrop
        rw [noDoubleL] at hnd
        have hb : b = '_' := by simpa using hlast
        subst hb
        intro hceq
        subst hceq
        simp at hnd
      | cons d rs =>
        rw [List.getLast?_cons_cons] at hlast
        rw [List.dropLast_cons₂, List.dropLast_cons₂] at hdrop
        rw [List.getLast?_cons_cons] at hdrop
        exact ih (noDoubleL_tail hnd) hlast
          (by rw [List.dropLast_cons₂]; exact hdrop)

theorem dropOneTrail_getLast_ne {X : List Char} (hnd : noDoubleL X = true)
    {c : Char} (h : (dropOneTrail X).getLast? = some c) : c ≠ '_' := by
  unfold dropOneTrail at h
  split at h
  · next hcond =>
    exact noDoubleL_dropLast_getLast hnd (by simpa using hcond) h
  · next hcond =>
    intro hc
    subst hc
    rw [h] at hcond
    simp at hcond

theorem sanitizeList_last_ne {l : List Char}
    (hlen : (sanitizeList l).length < 200) {c : Char}
    (h : (sanitizeList l).getLast? = some c) : c ≠ '_' := by
  have hfull :
      sanitizeList l =
        dropOneTrail (dropOneLead (collapseRuns (fun c => c == '_') '_'
          (collapseRuns isJsSpace '_'
            (l.map (fun c => if isIllegalChar c then '_' else c))))) := by
    unfold sanitizeList at hlen ⊢
    rw [List.length_take] at hlen
    exact List.take_of_length_le (by omega)
  rw [hfull] at h
  refine dropOneTrail_getLast_ne ?_ h
  exact noDoubleL_infix
    (List.IsSuffix.isInfix (dropOneLead_suffix _))
    (noDoubleL_collapseU false _)

theorem sanitizeFileName_props (s : String) :
    noIllegalOrSpace (sanitizeFileName s) = true ∧
    noDoubleUnderscore (sanitizeFileName s) = true ∧
    noLeadingUnderscore (sanitizeFileName s) = true ∧
    (sanitizeFileName s).length ≤ 200 ∧
    ((sanitizeFileName s).length < 200 →
      noTrailingUnderscore (sanitizeFileName s) = true) := by
  refine ⟨?_, ?_, ?_, ?_, ?_⟩
  · rw [noIllegalOrSpace, List.all_eq_true]
    intro c hc
    have := mem_sanitizeList (l := s.toList) hc
    simp [this.1, this.2]
  · exact noDoubleL_sanitizeList s.toList
  · rw [noLeadingUnderscore]
    rcases hX : sanitizeList s.toList with _ | ⟨c, cs⟩
    · simp only [String.toList] at hX
      simp [sanitizeFileName, hX]
    · have hne := sanitizeList_head_ne hX
      simp only [String.toList] at hX
      simp [sanitizeFileName, hX, hne]
  · exact sanitizeList_length s.toList
  · intro hlen
    rw [noTrailingUnderscore]
    rcases hg : (sanitizeList s.toList).getLast? with _ | c
    · simp only [String.toList] at hg
      simp [sanitizeFileName, hg]
    · have hne := sanitizeList_last_ne (l := s.toList) hlen hg
      simp only [String.toList] at hg
      simp [sanitizeFileName, hg, hne]

theorem replaceAll_no_open_brace (pat rep l : List Char)
    (hpat : pat.head? = some '{') (hmem : '{' ∉ l) :
    replaceAll pat rep l = l := by
  induction l with
  | nil => rw [replaceAll]
  | cons c cs ih =>
    rcases pat with _ | ⟨p0, ps⟩
    · simp at hpat
    · have hp0 : p0 = '{' := by simpa using hpat
      subst hp0
      have hcne : c ≠ '{' := fun h => hmem (by rw [h]; exact List.mem_cons_self _ _)
      have hbeq : ('{' == c) = false :=
        beq_eq_false_iff_ne.mpr (fun h => hcne h.symm)
      rw [replaceAll, List.isPrefixOf, hbeq, if_neg (by simp),
        ih (fun h => hmem (List.mem_cons_of_mem _ h))]

theorem generateFileName_no_brace (template : String)
    (vars : FileNameVariables) (h : '{' ∉ template.toList) :
    generateFileName template vars = sanitizeFileName template := by
  unfold generateFileName
  dsimp only
  rw [replaceAll_no_open_brace "{id}".toList _ _ rfl h]
  rw [replaceAll_no_open_brace "{chatTitle}".toList _ _ rfl h]
  rw [replaceAll_no_open_brace "{chatId}".toList _ _ rfl h]
  rw [replaceAll_no_open_brace "{date}".toList _ _ rfl h]
  rw [replaceAll_no_open_brace "{time}".toList _ _ rfl h]
  rw [replaceAll_no_open_brace "{type}".toList _ _ rfl h]
  rw [replaceAll_no_open_brace "{originalName}".toList _ _ rfl h]
  rw [replaceAll_no_open_brace "{extension}".toList _ _ rfl h]
  rw [replaceAll_no_open_brace "{caption}".toList _ _ rfl h]
  rw [replaceAll_no_open_brace "{messageId}".toList _ _ rfl h]
  rfl

/-- The list `['a', '_', 'a', '_', ...]` with `n` repetitions of `a_`. -/
def underscoreRun : Nat → List Char
  | 0 => []
  | n + 1 => 'a' :: '_' :: underscoreRun n

/-- A 202-character template without placeholders, used to exhibit the
trailing underscore that survives the final length truncation. -/
def cexTemplateC9 : String := String.mk (underscoreRun 101)

/-- A short placeholder-free template. -/
def wTemplateC9 : String := "abc"

/-- Template variables with every field empty. -/
def varsEmpty : FileNameVariables :=
  { id := "", chatTitle := "", chatId := "", date := "", time := "",
    type := "", originalName := "", extension := "", caption := "",
    messageId := "" }

/-- C9 (amended): for every template and variable assignment, the rendered
file name contains no filesystem-illegal character and no whitespace, has
no two consecutive underscores, does not start with an underscore, and has
length at most 200; it also does not end with an underscore whenever its
length is below 200 — but the final `.slice(0, 200)` truncation runs after
underscore trimming, so a name truncated at exactly 200 characters may end
with a single underscore. -/
theorem claim_C9_rendered_name_sanitized (template : String)
    (vars : FileNameVariables) :
    noIllegalOrSpace (generateFileName template vars) = true ∧
    noDoubleUnderscore (generateFileName template vars) = true ∧
    noLeadingUnderscore (generateFileName template vars) = true ∧
    (generateFileName template vars).length ≤ 200 ∧
    ((generateFileName template vars).length < 200 →
      noTrailingUnderscore (generateFileName template vars) = true) := by
  unfold generateFileName
  dsimp only
  exact sanitizeFileName_props _

set_option maxRecDepth 20000 in
/-- C9 counterexample: rendering the placeholder-free 202-character
template `a_a_…a_` yields a 200-character name that ends with `_`,
refuting the claim that the rendered name never has a trailing
underscore. -/
theorem claim_C9_counterexample :
    noTrailingUnderscore (generateFileName cexTemplateC9 varsEmpty) = false ∧
    (generateFileName cexTemplateC9 varsEmpty).length = 200 := by
  rw [generateFileName_no_brace _ _ (by decide)]
  constructor
  · decide
  · decide

/-- C9 witness: the amended theorem applied to the concrete template
`abc`, whose rendering is short, so the trailing-underscore guarantee of
the sub-200 case applies. -/
theorem claim_C9_witness :
    (generateFileName wTemplateC9 varsEmpty).length < 200 ∧
    noTrailingUnderscore (generateFileName wTemplateC9 varsEmpty) = true ∧
    noIllegalOrSpace (generateFileName wTemplateC9 varsEmpty) = true := by
  have h := claim_C9_rendered_name_sanitized wTemplateC9 varsEmpty
  have hlen : (generateFileName wTemplateC9 varsEmpty).length < 200 := by
    rw [generateFileName_no_brace _ _ (by decide)]
    decide
  exact ⟨hlen, h.2.2.2.2 hlen, h.1⟩

theorem extract_classify {freshId : String} {message : TgMessage}
    {chatId chatTitle : String} {media : MediaInfo}
    (h : extractMediaInfo freshId message chatId chatTitle = some media) :
    media.downloadable = (classifyDownloadable media.fileSize).1 ∧
    media.downloadableReason = (classifyDownloadable media.fileSize).2 := by
  unfold extractMediaInfo at h
  rcases hm : message.media with _ | mm <;> rw [hm] at h
  · simp at h
  · rcases mm with p | d | _
    · simp only [Option.some.injEq] at h
      subst h
      exact ⟨rfl, rfl⟩
    · rcases d with ⟨size, mime, attrs⟩ | _
      · simp only [Option.some.injEq] at h
        subst h
        exact ⟨rfl, rfl⟩
      · simp only [Option.some.injEq] at h
        subst h
        exact ⟨rfl, rfl⟩
    · simp at h

/-- C1: every record classified by `extractMediaInfo` is `TOO_LARGE`
whenever its resolved `fileSize` strictly exceeds 2 GiB, regardless of its
type, and `DOWNLOADABLE` whenever `fileSize` is at most 2 GiB (no other
restriction exists in the classifier). -/
theorem claim_C1_classification (freshId : String) (message : TgMessage)
    (chatId chatTitle : String) (media : MediaInfo)
    (h : extractMediaInfo freshId message chatId chatTitle = some media) :
    (2 * 1024 * 1024 * 1024 < media.fileSize →
      media.downloadable = DownloadableType.tooLarge) ∧
    (media.fileSize ≤ 2 * 1024 * 1024 * 1024 →
      media.downloadable = DownloadableType.downloadable) := by
  obtain ⟨hd, -⟩ := extract_classify h
  constructor
  · intro hgt
    rw [hd]
    unfold classifyDownloadable
    rw [if_pos (show media.fileSize > MAX_FILE_SIZE from hgt)]
  · intro hle
    rw [hd]
    unfold classifyDownloadable
    rw [if_neg (show ¬media.fileSize > MAX_FILE_SIZE from by
      unfold MAX_FILE_SIZE; omega)]

/-- A concrete date value for witnesses. -/
def dateW : JsDate :=
  { isoString := "2024-01-02T03:04:05.000Z", timeString := "03:04:05 GMT+0000" }

/-- A message carrying a 3 GiB MP4 document. -/
def wMsgBig : TgMessage :=
  { id := 7
    media := some (TgMedia.mediaDocument
      (TgDocument.doc 3221225472 "video/mp4" []))
    date := dateW
    text := none }

/-- The record the classifier produces for `wMsgBig`. -/
def wMediaBig : MediaInfo :=
  { id := "w", messageId := 7, chatId := "c", chatTitle := "t"
    type := MediaType.document
    mimeType := some "video/mp4"
    fileName := some "file_7.mp4"
    fileSize := 3221225472
    fileSizeFormatted := formatFileSize 3221225472
    downloadable := DownloadableType.tooLarge
    downloadableReason :=
      some ("文件大小超过2GB限制 (" ++ formatFileSize 3221225472 ++ ")")
    date := dateW, caption := none, duration := none, width := none,
    height := none }

/-- C1 witness: the classifier applied to the concrete 3 GiB document
yields `TOO_LARGE`. -/
theorem claim_C1_witness :
    2 * 1024 * 1024 * 1024 < wMediaBig.fileSize ∧
    wMediaBig.downloadable = DownloadableType.tooLarge :=
  ⟨by decide,
   (claim_C1_classification "w" wMsgBig "c" "t" wMediaBig (by decide)).1
     (by decide)⟩

/-- C5: the Task Factory's output-path computation is deterministic — two
calls with identical `(MediaRecord, DownloadConfig, override)` arguments,
the second running on the filesystem state left by the first, return
byte-identical paths (the only filesystem effect, `ensureDir`, does not
influence the returned path). -/
theorem claim_C5_naming_idempotent (media : MediaInfo)
    (config : DownloadConfig) (customFileName : Option String) (fs : FS) :
    (generateOutputPath media config customFileName fs).1 =
      (generateOutputPath media config customFileName
        (generateOutputPath media config customFileName fs).2).1 := rfl

/-- C8: a non-empty file-name override is used verbatim; the record's
inferred extension is appended exactly when the override contains no dot
(the source's `customFileName.includes('.')` test for having an
extension); and the factory's output path is the chosen directory joined
with that file name. -/
theorem claim_C8_override_verbatim (media : MediaInfo)
    (config : DownloadConfig) (c : String) (fs : FS) (hc : c ≠ "") :
    (c.toList.contains '.' = true →
      outputFileName media config (some c) = c) ∧
    (c.toList.contains '.' = false →
      outputFileName media config (some c) =
        c ++ getExtension (media.fileName.getD "") media.mimeType) ∧
    (generateOutputPath media config (some c) fs).1 =
      pathJoin
        (if config.createSubfolders then
          pathJoin config.outputDir (getMediaTypeFolder media.type)
         else config.outputDir)
        (outputFileName media config (some c)) := by
  refine ⟨?_, ?_, rfl⟩
  · intro hdot
    simp only [outputFileName]
    rw [if_pos hc, if_pos hdot]
  · intro hdot
    simp only [outputFileName]
    rw [if_pos hc, if_neg (ne_true_of_eq_false hdot)]

/-- A small downloadable classified record used in witnesses. -/
def wMediaOk : MediaInfo :=
  { id := "s", messageId := 8, chatId := "c", chatTitle := "t"
    type := MediaType.video
    mimeType := some "video/mp4"
    fileName := none
    fileSize := 1000
    fileSizeFormatted := formatFileSize 1000
    downloadable := DownloadableType.downloadable
    downloadableReason := none
    date := dateW, caption := none, duration := none, width := none,
    height := none }

/-- The empty filesystem. -/
def fsEmpty : FS := { files := [], dirs := [] }

/-- C8 witness: an extension-free override gets `.mp4` appended; an
override with a dot is used unchanged. -/
theorem claim_C8_witness :
    outputFileName wMediaOk DEFAULT_DOWNLOAD_CONFIG (some "video") =
      "video.mp4" ∧
    outputFileName wMediaOk DEFAULT_DOWNLOAD_CONFIG (some "clip.avi") =
      "clip.avi" := by
  constructor
  · rw [(claim_C8_override_verbatim wMediaOk DEFAULT_DOWNLOAD_CONFIG "video"
      fsEmpty (by decide)).2.1 (by decide)]
    decide
  · exact (claim_C8_override_verbatim wMediaOk DEFAULT_DOWNLOAD_CONFIG
      "clip.avi" fsEmpty (by decide)).1 (by decide)

/-- C10: the cleanup removes exactly the COMPLETED and CANCELLED tasks; an
entry survives, unchanged, iff it was registered and its status is neither
COMPLETED nor CANCELLED — in particular FAILED, PENDING, DOWNLOADING and
PAUSED tasks all remain. -/
theorem claim_C10_clear_completed (reg : Registry)
    (e : String × DownloadTask) :
    e ∈ clearCompletedTasks reg ↔
      e ∈ reg ∧ e.2.status ≠ DownloadStatus.completed ∧
        e.2.status ≠ DownloadStatus.cancelled := by
  unfold clearCompletedTasks
  rw [List.mem_filter]
  simp [not_or, and_assoc]

/-- A FAILED task for the cleanup witness. -/
def wTaskFailed : DownloadTask :=
  { id := "f", media := wMediaOk, status := DownloadStatus.failed,
    progress := 30, downloadedBytes := 3, outputPath := "p",
    customFileName := none, error := some "x", retryCount := 3 }

/-- A COMPLETED task for the cleanup witness. -/
def wTaskDone : DownloadTask :=
  { id := "d", media := wMediaOk, status := DownloadStatus.completed,
    progress := 100, downloadedBytes := 1000, outputPath := "q",
    customFileName := none, error := none, retryCount := 0 }

/-- A two-task registry for the cleanup witness. -/
def wRegistry : Registry := [("f", wTaskFailed), ("d", wTaskDone)]

/-- C10 witness: cleanup keeps the FAILED task and drops the COMPLETED
one. -/
theorem claim_C10_witness :
    ("f", wTaskFailed) ∈ clearCompletedTasks wRegistry ∧
    ("d", wTaskDone) ∉ clearCompletedTasks wRegistry :=
  ⟨(claim_C10_clear_completed wRegistry ("f", wTaskFailed)).mpr
      ⟨by decide, by decide, by decide⟩,
   fun h =>
     ((claim_C10_clear_completed wRegistry ("d", wTaskDone)).mp h).2.1 rfl⟩

/-- The empty configuration override. -/
def noOverride : PartialDownloadConfig := {}

/-- C6 (amended): `concurrentDownloads` is range-checked (1–10) only by the
interactive configuration prompt's validator; `updateDownloadConfig` and
`downloadAll` perform no clamping, and the batch scheduler's concurrency
bound is the merged configuration's `concurrentDownloads` verbatim, even
when it lies outside 1–10. -/
theorem claim_C6_concurrency_unclamped (saved : DownloadConfig)
    (override : PartialDownloadConfig) (mediaList : List MediaInfo)
    (n : Nat) :
    (downloadAllPlan saved override mediaList).concurrency =
      (mergeDownloadConfig saved override).concurrentDownloads ∧
    (updateDownloadConfig saved override).concurrentDownloads =
      (mergeDownloadConfig saved override).concurrentDownloads ∧
    (validateConcurrentDownloadsInput n = true ↔ 1 ≤ n ∧ n ≤ 10) := by
  refine ⟨rfl, rfl, ?_⟩
  unfold validateConcurrentDownloadsInput
  simp

/-- C6 counterexample: overriding `concurrentDownloads` with 20 reaches the
scheduler unclamped — `downloadAll` hands `pLimit` the bound 20, outside
1–10, refuting the claim that out-of-range values are rejected or clamped
before use. -/
theorem claim_C6_counterexample :
    (downloadAllPlan DEFAULT_DOWNLOAD_CONFIG
      { concurrentDownloads := some 20 } []).concurrency = 20 ∧
    ¬((downloadAllPlan DEFAULT_DOWNLOAD_CONFIG
      { concurrentDownloads := some 20 } []).concurrency ≤ 10) :=
  ⟨rfl, by decide⟩

/-- C6 witness: the amended theorem at concrete inputs — the default
configuration's bound 3 passes through unchanged, and the prompt validator
accepts 5. -/
theorem claim_C6_witness :
    validateConcurrentDownloadsInput 5 = true ∧
    (downloadAllPlan DEFAULT_DOWNLOAD_CONFIG noOverride []).concurrency = 3 := by
  refine
    ⟨(claim_C6_concurrency_unclamped DEFAULT_DOWNLOAD_CONFIG noOverride [] 5).2.2.mpr
      (by omega), ?_⟩
  rw [(claim_C6_concurrency_unclamped DEFAULT_DOWNLOAD_CONFIG noOverride [] 5).1]
  rfl

theorem fileExists_ensureDir (fs : FS) (d p : String) :
    fileExists (ensureDir fs d) p = fileExists fs p := by
  unfold ensureDir
  split <;> rfl

theorem fileExists_fsUnlink_self (fs : FS) (p : String) :
    fileExists (fsUnlink fs p) p = false := by
  simp [fileExists, fsUnlink, List.contains, List.mem_filter]

theorem fileExists_fsUnlink_of_false (fs : FS) (p q : String)
    (h : fileExists fs p = false) :
    fileExists (fsUnlink fs q) p = false := by
  simp only [fileExists, fsUnlink, List.contains] at h ⊢
  simp only [List.elem_eq_mem, decide_eq_false_iff_not, List.mem_filter] at h ⊢
  intro hc
  exact h hc.1

theorem extract_reason_of_not_downloadable {freshId : String}
    {message : TgMessage} {chatId chatTitle : String} {media : MediaInfo}
    (h : extractMediaInfo freshId message chatId chatTitle = some media)
    (hnd : media.downloadable ≠ DownloadableType.downloadable) :
    media.downloadableReason =
      some ("文件大小超过2GB限制 (" ++ formatFileSize media.fileSize ++ ")") := by
  obtain ⟨hd, hr⟩ := extract_classify h
  by_cases hgt : media.fileSize > MAX_FILE_SIZE
  · rw [hr]
    unfold classifyDownloadable
    rw [if_pos hgt]
  · exfalso
    apply hnd
    rw [hd]
    unfold classifyDownloadable
    rw [if_neg hgt]

/-- C7: executing a task whose classifier-produced record has a verdict
other than DOWNLOADABLE immediately fails: status FAILED, the task's error
equal to the record's `downloadableReason` (which classification always
populates for such records), `retryCount` untouched, and the whole trace a
single `onError` invocation — no transfer, no delay, no retry. -/
theorem claim_C7_non_downloadable_fails (freshId : String)
    (message : TgMessage) (chatId chatTitle : String) (media : MediaInfo)
    (env : Env) (config : DownloadConfig) (task : DownloadTask) (fs : FS)
    (hclass : extractMediaInfo freshId message chatId chatTitle = some media)
    (hmedia : task.media = media)
    (hnd : media.downloadable ≠ DownloadableType.downloadable) :
    ∃ s, media.downloadableReason = some s ∧
      (executeDownload env config task fs).task.status =
        DownloadStatus.failed ∧
      (executeDownload env config task fs).task.error =
        media.downloadableReason ∧
      (executeDownload env config task fs).task.retryCount = task.retryCount ∧
      (executeDownload env config task fs).trace = [Ev.errorEv task.id s] := by
  have hr := extract_reason_of_not_downloadable hclass hnd
  have hstep : executeDownload env config task fs =
      { task :=
          { task with
            status := DownloadStatus.failed,
            error := some (task.media.downloadableReason.getD "文件不可下载") }
        fs := fs
        trace :=
          [Ev.errorEv task.id
            (task.media.downloadableReason.getD "文件不可下载")] } := by
    unfold executeDownload
    rw [if_pos (by rw [hmedia]; exact hnd)]
  refine ⟨_, hr, ?_, ?_, ?_, ?_⟩
  · rw [hstep]
  · rw [hstep]
    show some (task.media.downloadableReason.getD "文件不可下载") =
      media.downloadableReason
    rw [hmedia, hr]
    rfl
  · rw [hstep]
  · rw [hstep]
    show [Ev.errorEv task.id (task.media.downloadableReason.getD "文件不可下载")] = _
    rw [hmedia, hr]
    rfl

/-- C3: a task cancelled mid-transfer (cancel flag observed by the progress
callback, pause flag not set) ends CANCELLED, with no file at its output
path, no resume marker at `outputPath + ".dlstate"`, and no `onError`
invocation in its trace. -/
theorem claim_C3_cancel_cleanup (env : Env) (config : DownloadConfig)
    (task : DownloadTask) (fs : FS)
    (hdl : task.media.downloadable = DownloadableType.downloadable)
    (hskip : (config.skipExisting && fileExists fs task.outputPath) = false)
    (hp : env.paused = false) (hcan : env.cancelled = true) :
    (executeDownload env config task fs).task.status =
      DownloadStatus.cancelled ∧
    fileExists (executeDownload env config task fs).fs task.outputPath =
      false ∧
    fileExists (executeDownload env config task fs).fs
      (statePath task.outputPath) = false ∧
    ∀ msg, Ev.errorEv task.id msg ∉ (executeDownload env config task fs).trace := by
  have hstep : executeDownload env config task fs =
      { task := { task with status := DownloadStatus.cancelled }
        fs := fsUnlink (fsUnlink (ensureDir fs (dirname task.outputPath))
                task.outputPath) (statePath task.outputPath)
        trace := [Ev.startEv task.id, Ev.transferEv task.retryCount] } := by
    unfold executeDownload
    rw [if_neg (by rw [hdl]; simp), if_neg (ne_true_of_eq_false hskip),
      if_neg (by rw [hp]; exact Bool.false_ne_true), if_pos hcan]
  refine ⟨by rw [hstep], ?_, ?_, ?_⟩
  · rw [hstep]
    show fileExists (fsUnlink _ (statePath task.outputPath)) task.outputPath
      = false
    exact fileExists_fsUnlink_of_false _ _ _ (fileExists_fsUnlink_self _ _)
  · rw [hstep]
    exact fileExists_fsUnlink_self _ _
  · intro msg
    rw [hstep]
    simp

/-- C4 (amended): with `skipExisting = true`, a file already present at the
task's output path, and a DOWNLOADABLE record, execution performs no
transfer call and ends COMPLETED with `progress = 100`. The downloadable
hypothesis is necessary: the non-downloadable check precedes the
skip-existing check. -/
theorem claim_C4_skip_existing (env : Env) (config : DownloadConfig)
    (task : DownloadTask) (fs : FS)
    (hdl : task.media.downloadable = DownloadableType.downloadable)
    (hskip : config.skipExisting = true)
    (hex : fileExists fs task.outputPath = true) :
    (executeDownload env config task fs).task.status =
      DownloadStatus.completed ∧
    (executeDownload env config task fs).task.progress = 100 ∧
    ∀ k, Ev.transferEv k ∉ (executeDownload env config task fs).trace := by
  have hstep : executeDownload env config task fs =
      { task :=
          { task with
            status := DownloadStatus.completed, progress := 100,
            downloadedBytes := task.media.fileSize }
        fs := fs
        trace := [Ev.completeEv task.id] } := by
    unfold executeDownload
    rw [if_neg (by rw [hdl]; simp), if_pos (by rw [hskip, hex]; rfl)]
  refine ⟨by rw [hstep], by rw [hstep], ?_⟩
  intro k
  rw [hstep]
  simp

/-- An execution environment with neither control flag set and a transfer
provider that always succeeds. -/
def envIdle : Env :=
  { paused := false, cancelled := false, provider := fun _ => TransferOutcome.ok }

/-- A task over the non-downloadable 3 GiB record. -/
def wTaskBig : DownloadTask :=
  { id := "b", media := wMediaBig, status := DownloadStatus.pending,
    progress := 0, downloadedBytes := 0, outputPath := "out/f.mp4",
    customFileName := none, error := none, retryCount := 0 }

/-- A filesystem already holding `wTaskBig`'s output path. -/
def wFsWithF : FS := { files := ["out/f.mp4"], dirs := [] }

/-- C4 counterexample: with `skipExisting = true` and the output file
already present, a task whose record is TOO_LARGE ends FAILED, not
COMPLETED — the claim omits the downloadable precondition. -/
theorem claim_C4_counterexample :
    DEFAULT_DOWNLOAD_CONFIG.skipExisting = true ∧
    fileExists wFsWithF wTaskBig.outputPath = true ∧
    (executeDownload envIdle DEFAULT_DOWNLOAD_CONFIG wTaskBig
      wFsWithF).task.status = DownloadStatus.failed := by
  refine ⟨rfl, by decide, ?_⟩
  unfold executeDownload
  rw [if_pos (by decide)]

theorem exec_step_err (env : Env) (config : DownloadConfig)
    (task : DownloadTask) (fs : FS)
    (hdl : task.media.downloadable = DownloadableType.downloadable)
    (hskip : (config.skipExisting && fileExists fs task.outputPath) = false)
    (hp : env.paused = false) (hcan : env.cancelled = false)
    (msg : String)
    (hprov : env.provider task.retryCount = TransferOutcome.err msg) :
    executeDownload env config task fs =
      if task.retryCount < config.maxRetries then
        let r := executeDownload env config
          { task with
            status := DownloadStatus.downloading,
            retryCount := task.retryCount + 1 }
          (ensureDir fs (dirname task.outputPath))
        { task := r.task
          fs := r.fs
          trace :=
            [Ev.startEv task.id, Ev.transferEv task.retryCount,
             Ev.delayEv (config.retryDelay * (task.retryCount + 1))] ++ r.trace }
      else
        { task :=
            { task with status := DownloadStatus.failed, error := some msg }
          fs := ensureDir fs (dirname task.outputPath)
          trace := [Ev.startEv task.id, Ev.transferEv task.retryCount,
                    Ev.errorEv task.id msg] } := by
  conv_lhs => rw [executeDownload]
  rw [if_neg (by rw [hdl]; simp), if_neg (ne_true_of_eq_false hskip),
    if_neg (by rw [hp]; exact Bool.false_ne_true),
    if_neg (by rw [hcan]; exact Bool.false_ne_true), hprov]

theorem delaysOf_append (a b : List Ev) :
    delaysOf (a ++ b) = delaysOf a ++ delaysOf b :=
  List.filterMap_append a b _

theorem exec_allfail (env : Env) (config : DownloadConfig) (m : Nat → String)
    (hprov : ∀ k, env.provider k = TransferOutcome.err (m k))
    (hp : env.paused = false) (hcan : env.cancelled = false) :
    ∀ (n : Nat) (task : DownloadTask) (fs : FS),
      config.maxRetries - task.retryCount = n →
      task.retryCount ≤ config.maxRetries →
      task.media.downloadable = DownloadableType.downloadable →
      (config.skipExisting && fileExists fs task.outputPath) = false →
      (executeDownload env config task fs).task.status =
        DownloadStatus.failed ∧
      (executeDownload env config task fs).task.error =
        some (m config.maxRetries) ∧
      (executeDownload env config task fs).task.retryCount =
        config.maxRetries ∧
      delaysOf (executeDownload env config task fs).trace =
        (List.range' (task.retryCount + 1)
          (config.maxRetries - task.retryCount)).map
            (fun k => config.retryDelay * k) := by
  intro n
  induction n with
  | zero =>
    intro task fs h1 h2 hdl hskip
    have heq : task.retryCount = config.maxRetries := by omega
    rw [exec_step_err env config task fs hdl hskip hp hcan _
      (hprov task.retryCount)]
    rw [if_neg (by omega)]
    refine ⟨rfl, ?_, ?_, ?_⟩
    · show some (m task.retryCount) = some (m config.maxRetries)
      rw [heq]
    · show task.retryCount = config.maxRetries
      exact heq
    · rw [h1]
      show delaysOf [Ev.startEv task.id, Ev.transferEv task.retryCount,
        Ev.errorEv task.id (m task.retryCount)] = _
      simp [delaysOf, List.range']
  | succ k ih =>
    intro task fs h1 h2 hdl hskip
    have hlt : task.retryCount < config.maxRetries := by omega
    rw [exec_step_err env config task fs hdl hskip hp hcan _
      (hprov task.retryCount)]
    rw [if_pos hlt]
    have ih2 := ih
      { task with
        status := DownloadStatus.downloading,
        retryCount := task.retryCount + 1 }
      (ensureDir fs (dirname task.outputPath))
      (by show config.maxRetries - (task.retryCount + 1) = k; omega)
      (by show task.retryCount + 1 ≤ config.maxRetries; omega)
      hdl
      (by show (config.skipExisting &&
            fileExists (ensureDir fs (dirname task.outputPath))
              task.outputPath) = false
          rwa [fileExists_ensureDir])
    refine ⟨ih2.1, ih2.2.1, ih2.2.2.1, ?_⟩
    rw [delaysOf_append, ih2.2.2.2]
    dsimp only
    rw [h1, show config.maxRetries - (task.retryCount + 1) = k from by omega,
      List.range'_succ]
    rfl

/-- C2: a fresh task (retryCount 0) whose transfer fails on every attempt
with an ordinary failure (no pause/cancel flag) ends FAILED with its error
set to the last attempt's failure description and `retryCount` equal to
`maxRetries`; the recorded sleeps before the k-th retry are exactly
`retryDelay * k` for `k = 1 … maxRetries`. -/
theorem claim_C2_retry_exhaustion (env : Env) (config : DownloadConfig)
    (task : DownloadTask) (fs : FS) (m : Nat → String)
    (hprov : ∀ k, env.provider k = TransferOutcome.err (m k))
    (hp : env.paused = false) (hcan : env.cancelled = false)
    (hdl : task.media.downloadable = DownloadableType.downloadable)
    (hskip : (config.skipExisting && fileExists fs task.outputPath) = false)
    (hr0 : task.retryCount = 0) :
    (executeDownload env config task fs).task.status =
      DownloadStatus.failed ∧
    (executeDownload env config task fs).task.error =
      some (m config.maxRetries) ∧
    (executeDownload env config task fs).task.retryCount =
      config.maxRetries ∧
    delaysOf (executeDownload env config task fs).trace =
      (List.range' 1 config.maxRetries).map
        (fun k => config.retryDelay * k) := by
  have h := exec_allfail env config m hprov hp hcan
    (config.maxRetries - task.retryCount) task fs rfl (by omega) hdl hskip
  rw [hr0] at h
  simpa using h

/-- An execution environment whose transfer fails on every attempt with
the same description. -/
def envFail : Env :=
  { paused := false, cancelled := false,
    provider := fun _ => TransferOutcome.err "网络错误" }

/-- A retrying configuration: two retries, 100 ms delay, no skip. -/
def wCfgRetry : DownloadConfig :=
  { DEFAULT_DOWNLOAD_CONFIG with
    maxRetries := 2, retryDelay := 100, skipExisting := false }

/-- A fresh task over the small downloadable record. -/
def wTaskOk : DownloadTask :=
  { id := "s", media := wMediaOk, status := DownloadStatus.pending,
    progress := 0, downloadedBytes := 0, outputPath := "out/v.mp4",
    customFileName := none, error := none, retryCount := 0 }

/-- C2 witness: the always-failing provider with `maxRetries = 2` ends
FAILED with `retryCount = 2`, the last error message, and sleeps 100 ms
then 200 ms. -/
theorem claim_C2_witness :
    (executeDownload envFail wCfgRetry wTaskOk fsEmpty).task.status =
      DownloadStatus.failed ∧
    (executeDownload envFail wCfgRetry wTaskOk fsEmpty).task.error =
      some "网络错误" ∧
    (executeDownload envFail wCfgRetry wTaskOk fsEmpty).task.retryCount = 2 ∧
    delaysOf (executeDownload envFail wCfgRetry wTaskOk fsEmpty).trace =
      [100, 200] := by
  have h := claim_C2_retry_exhaustion envFail wCfgRetry wTaskOk fsEmpty
    (fun _ => "网络错误") (fun k => rfl) rfl rfl rfl rfl rfl
  exact ⟨h.1, h.2.1, h.2.2.1, by rw [h.2.2.2]; rfl⟩

/-- An execution environment with the cancel flag set. -/
def envCancel : Env :=
  { paused := false, cancelled := true,
    provider := fun _ => TransferOutcome.ok }

/-- C3 witness: cancelling the concrete task yields CANCELLED with neither
the output file nor the resume marker present. -/
theorem claim_C3_witness :
    (executeDownload envCancel wCfgRetry wTaskOk fsEmpty).task.status =
      DownloadStatus.cancelled ∧
    fileExists (executeDownload envCancel wCfgRetry wTaskOk fsEmpty).fs
      wTaskOk.outputPath = false ∧
    fileExists (executeDownload envCancel wCfgRetry wTaskOk fsEmpty).fs
      (statePath wTaskOk.outputPath) = false := by
  have h := claim_C3_cancel_cleanup envCancel wCfgRetry wTaskOk fsEmpty
    rfl rfl rfl rfl
  exact ⟨h.1, h.2.1, h.2.2.1⟩

/-- A filesystem already holding `wTaskOk`'s output path. -/
def wFsWithV : FS := { files := ["out/v.mp4"], dirs := [] }

/-- C4 witness: the amended skip-existing theorem at a concrete
downloadable task with its output file present. -/
theorem claim_C4_witness :
    (executeDownload envIdle DEFAULT_DOWNLOAD_CONFIG wTaskOk
      wFsWithV).task.status = DownloadStatus.completed ∧
    (executeDownload envIdle DEFAULT_DOWNLOAD_CONFIG wTaskOk
      wFsWithV).task.progress = 100 := by
  have h := claim_C4_skip_existing envIdle DEFAULT_DOWNLOAD_CONFIG wTaskOk
    wFsWithV rfl rfl (by decide)
  exact ⟨h.1, h.2.1⟩

/-- C7 witness: executing the task over the TOO_LARGE record fails with
the classification reason preserved verbatim. -/
theorem claim_C7_witness :
    (executeDownload envIdle DEFAULT_DOWNLOAD_CONFIG wTaskBig
      fsEmpty).task.status = DownloadStatus.failed ∧
    (executeDownload envIdle DEFAULT_DOWNLOAD_CONFIG wTaskBig
      fsEmpty).task.error = wMediaBig.downloadableReason := by
  obtain ⟨s, hs, h1, h2, h3, h4⟩ :=
    claim_C7_non_downloadable_fails "w" wMsgBig "c" "t" wMediaBig envIdle
      DEFAULT_DOWNLOAD_CONFIG wTaskBig fsEmpty (by decide) rfl (by decide)
  exact ⟨h1, h2⟩

end TgDl
